import Mathlib

/-!
# Verification of `examples_pico/streamingData.cpp`

A shallow embedding of the streaming-data example: the payload generator
`makePayload`, the bounded-retry transmit loop, the receive drain, the
role/command state machine in `loop()`, and the `setup()`/`main()` gate.

Conventions of the embedding:
* the 33-byte `char buffer[SIZE + 1]` is a function `Nat → Nat` giving the
  byte at each index (only indices `0 .. SIZE` are ever touched by the code);
* C integer arithmetic that can go negative (`(SIZE - 1) / 2 - i` inside
  `abs`) is carried out on `Int`, exactly as the C `int` promotion does;
* the 8-bit `uint8_t counter` wraps modulo 256;
* interactions with the radio and the console are recorded as an ordered
  event trace, so that statements about the order of work inside one pass of
  `loop()` can be made;
* the outcome of each `radio.writeFast` call is an arbitrary Boolean stream
  `outcomes : Nat → Bool`, indexed by the number of attempts so far.
-/

namespace StreamingData

/-- `#define SIZE 32` — the payload size used by both nodes. -/
def SIZE : Nat := 32

/-- Byte 0 of a payload: `buffer[0] = i + (i < 26 ? 65 : 71);`. -/
def markerByte (i : Nat) : Nat :=
  i + (if i < 26 then 65 else 71)

/-- One body of the `for` loop in `makePayload`:
`char chr = j >= (SIZE - 1) / 2 + abs((SIZE - 1) / 2 - i);`
`chr |= j < (SIZE - 1) / 2 - abs((SIZE - 1) / 2 - i);`
`buffer[j + 1] = chr + 48;`
The subtraction `(SIZE - 1) / 2 - i` happens on C `int`, hence on `Int` here. -/
def chevronByte (i j : Nat) : Nat :=
  let mid : Int := ((SIZE : Int) - 1) / 2
  let d : Int := |mid - (i : Int)|
  let chr : Nat := if (j : Int) ≥ mid + d then 1 else 0
  let chr : Nat := chr ||| (if (j : Int) < mid - d then 1 else 0)
  chr + 48

/-- `makePayload(uint8_t i)`: writes byte 0 and bytes `1 .. SIZE-1` of the
shared buffer (the loop runs `j = 0 .. SIZE-2` and writes index `j + 1`);
every other index keeps its previous contents. -/
def makePayload (i : Nat) (b : Nat → Nat) : Nat → Nat := fun k =>
  if k = 0 then markerByte i
  else if k ≤ SIZE - 1 then chevronByte i (k - 1)
  else b k

/-- `buffer[SIZE] = 0;` at the top of `setup()`. -/
def setupBuffer (b : Nat → Nat) : Nat → Nat := fun k =>
  if k = SIZE then 0 else b k

/-- `radio.read(&buffer, SIZE);` — copies exactly `SIZE` bytes of the
received payload `p` into the buffer, leaving the rest of the buffer alone. -/
def readPayload (p : Nat → Nat) (b : Nat → Nat) : Nat → Nat := fun k =>
  if k < SIZE then p k else b k

/-- Length of the C string held in the buffer: the least index `< fuel`
holding a 0 byte, scanning from `k`. -/
def cstrLenFrom (b : Nat → Nat) : Nat → Nat → Nat
  | 0, k => k
  | fuel + 1, k => if b k = 0 then k else cstrLenFrom b fuel (k + 1)

/-- `strlen(buffer)` restricted to the `SIZE + 1` cells the program owns. -/
def cstrLen (b : Nat → Nat) : Nat := cstrLenFrom b (SIZE + 1) 0

/-! ## The role state machine and one pass of `loop()` -/

/-- Observable actions of one pass of `loop()`, in the order the code
performs them. -/
inductive Ev where
  /-- the whole transmit branch (`flush_tx`, the send loop, the report). -/
  | txCycle
  /-- `radio.read(&buffer, SIZE)` of one available payload. -/
  | rxRead
  /-- the `getchar_timeout_us(500)` command sample. -/
  | cmdSample
  /-- `radio.stopListening()`. -/
  | stopListen
  /-- `radio.startListening()`. -/
  | startListen
  /-- `printf("radio hardware is not responding!!\n")` in `setup()`. -/
  | radioFailReport
  deriving DecidableEq, Repr

/-- The module-level mutable state of the example: `bool role`
(`true` = TX node), `uint8_t counter`, plus whether the radio was last told
to listen. -/
structure NodeState where
  role : Bool
  counter : Nat
  listening : Bool
  deriving DecidableEq, Repr

/-- `counter++` on a `uint8_t`. -/
def incCounter (c : Nat) : Nat := (c + 1) % 256

/-- The role-conditional first half of `loop()`: the TX branch runs a whole
stream cycle (local to the branch, so the node state is untouched); the RX
branch drains one payload and bumps `counter` when one is available. -/
def roleWork (s : NodeState) (available : Bool) : NodeState × List Ev :=
  if s.role then (s, [Ev.txCycle])
  else if available then ({ s with counter := incCounter s.counter }, [Ev.rxRead])
  else (s, [])

/-- The command-sampling second half of `loop()`:
`char input = getchar_timeout_us(500);` followed by the two guarded role
switches. `none` stands for `PICO_ERROR_TIMEOUT`. -/
def applyCommand (s : NodeState) (input : Option Char) : NodeState × List Ev :=
  match input with
  | none => (s, [Ev.cmdSample])
  | some c =>
      if (c = 'T' ∨ c = 't') ∧ s.role = false then
        ({ role := true, counter := 0, listening := false },
         [Ev.cmdSample, Ev.stopListen])
      else if (c = 'R' ∨ c = 'r') ∧ s.role = true then
        ({ s with role := false, listening := true },
         [Ev.cmdSample, Ev.startListen])
      else (s, [Ev.cmdSample])

/-- The literal argument of `getchar_timeout_us` in `loop()` — the unit of
that pico-sdk call is microseconds. -/
def commandTimeoutUs : Nat := 500

/-- Per-tick environment: whether `radio.available()` reports a payload, and
the character delivered by `getchar_timeout_us` (if any). -/
structure TickInput where
  available : Bool
  input : Option Char
  deriving DecidableEq, Repr

/-- One whole pass of `loop()`: role-conditional work first, then the
command sample, with the concatenated event trace. -/
def tick (s : NodeState) (inp : TickInput) : NodeState × List Ev :=
  let r := roleWork s inp.available
  let c := applyCommand r.1 inp.input
  (c.1, r.2 ++ c.2)

/-! ## The transmit send loop -/

/-- Result of the `while (i < SIZE)` send loop: final stream position `i`,
final `failures`, and the number of loop iterations executed. -/
structure SendResult where
  pos : Nat
  fails : Nat
  iters : Nat
  deriving DecidableEq, Repr

/-- The send loop of the TX branch. `outcomes n` is what the `n`-th
`radio.writeFast(&buffer, SIZE)` call returns. Each iteration either
advances `i` (success) or bumps `fails` (failure, after `reUseTX`), then
checks `failures >= 100` and breaks if so. -/
def sendLoop (outcomes : Nat → Bool) (i fails n : Nat) : SendResult :=
  if i < SIZE then
    if outcomes n then
      if 100 ≤ fails then ⟨i + 1, fails, n + 1⟩
      else sendLoop outcomes (i + 1) fails (n + 1)
    else
      if 100 ≤ fails + 1 then ⟨i, fails + 1, n + 1⟩
      else sendLoop outcomes i (fails + 1) (n + 1)
  else ⟨i, fails, n⟩
  termination_by (SIZE - i) + (100 - fails)
  decreasing_by
  · simp only [SIZE] at *; omega
  · simp only [SIZE] at *; omega

/-! ## `setup()` and `main()` -/

/-- `setup()` as far as the claims see it: if `radio.begin()` fails the
failure is reported and `setup` returns `false`; otherwise the node starts
listening (the initial `role` is `false`, the RX branch of the role-specific
setup) and `setup` returns `true`. -/
def setupRun (beginOk : Bool) : Bool × List Ev :=
  if beginOk then (true, [Ev.startListen]) else (false, [Ev.radioFailReport])

/-- The module state right after a successful `setup()`:
`role = false` (RX), `counter = 0`, listening. -/
def initState : NodeState := ⟨false, 0, true⟩

/-- The state after `n` passes of `loop()` from `initState`, feeding tick
`k` the environment `inputs k`. -/
def runTicks (inputs : Nat → TickInput) : Nat → NodeState
  | 0 => initState
  | n + 1 => (tick (runTicks inputs n) (inputs n)).1

/-- The concatenated event trace of the first `n` passes of `loop()`. -/
def runEvents (inputs : Nat → TickInput) : Nat → List Ev
  | 0 => []
  | n + 1 => runEvents inputs n ++ (tick (runTicks inputs n) (inputs n)).2

/-- `main()`: `bool setup_ok = setup(); while (setup_ok) loop();` — the
node state after `n` ticks, or `none` when the tick loop was never entered. -/
def mainState (beginOk : Bool) (inputs : Nat → TickInput) (n : Nat) :
    Option NodeState :=
  if (setupRun beginOk).1 then some (runTicks inputs n) else none

/-- Everything the process run has done after `setup` and `n` ticks. -/
def mainEvents (beginOk : Bool) (inputs : Nat → TickInput) (n : Nat) :
    List Ev :=
  (setupRun beginOk).2 ++
    (if (setupRun beginOk).1 then runEvents inputs n else [])

/-! ## Helper lemmas -/

/-- The chevron byte, for in-range `i` and `j`, is '0' inside the band
`[mid - d, mid + d)` and '1' outside it. -/
lemma chevronByte_band : ∀ i < SIZE, ∀ j < SIZE - 1,
    chevronByte i j =
      (if ((SIZE : Int) - 1) / 2 - |((SIZE : Int) - 1) / 2 - (i : Int)| ≤ (j : Int) ∧
          (j : Int) < ((SIZE : Int) - 1) / 2 + |((SIZE : Int) - 1) / 2 - (i : Int)|
       then 48 else 49) := by
  decide

/-- The marker byte is injective on stream positions `0 .. SIZE - 1`. -/
lemma markerByte_inj : ∀ i < SIZE, ∀ i2 < SIZE,
    markerByte i = markerByte i2 → i = i2 := by
  decide

/-- Payload bytes written by `makePayload` land on indices `0 .. SIZE - 1`
only; everything above is untouched. -/
lemma makePayload_frame (i : Nat) (b : Nat → Nat) (k : Nat) (hk : SIZE ≤ k) :
    makePayload i b k = b k := by
  unfold makePayload
  have h0 : k ≠ 0 := by simp only [SIZE] at hk; omega
  have h1 : ¬ k ≤ SIZE - 1 := by simp only [SIZE] at *; omega
  simp [h0, h1]

/-- For an in-range index the byte written by `makePayload` does not depend
on the previous buffer contents. -/
lemma makePayload_lt (i : Nat) (b : Nat → Nat) (k : Nat) (hk : k < SIZE) :
    makePayload i b k = if k = 0 then markerByte i else chevronByte i (k - 1) := by
  unfold makePayload
  by_cases h0 : k = 0
  · simp [h0]
  · have h1 : k ≤ SIZE - 1 := by simp only [SIZE] at *; omega
    simp [h0, h1]

/-- Every byte `makePayload` writes is nonzero (letters and ASCII digits). -/
lemma makePayload_nonzero (i : Nat) (b : Nat → Nat) :
    ∀ k < SIZE, makePayload i b k ≠ 0 := by
  intro k hk
  rw [makePayload_lt i b k hk]
  by_cases h0 : k = 0
  · simp only [h0, if_pos]
    unfold markerByte
    split_ifs <;> omega
  · simp only [h0, if_neg, ite_false]
    dsimp only [chevronByte]
    omega

/-- A buffer whose first `SIZE` bytes are nonzero and whose byte `SIZE` is 0
prints as a string of exactly `SIZE` characters. -/
lemma cstrLen_of_nonzero (b : Nat → Nat)
    (h : ∀ k < SIZE, b k ≠ 0) (hS : b SIZE = 0) : cstrLen b = SIZE := by
  have aux : ∀ fuel k, k + fuel = SIZE + 1 → k ≤ SIZE →
      cstrLenFrom b fuel k = SIZE := by
    intro fuel
    induction fuel with
    | zero => intro k hk hk2; omega
    | succ m ih =>
        intro k hk hk2
        by_cases hks : k = SIZE
        · subst hks; simp [cstrLenFrom, hS]
        · have hklt : k < SIZE := by omega
          have hstep : cstrLenFrom b (m + 1) k = cstrLenFrom b m (k + 1) := by
            simp [cstrLenFrom, h k hklt]
          rw [hstep]
          exact ih (k + 1) (by omega) (by omega)
  exact aux (SIZE + 1) 0 rfl (by simp [SIZE])

/-- Invariant of the send loop: every iteration advances the position or the
failure count by exactly one, and the loop exits either having completed the
stream with fewer than 100 failures or having aborted at exactly 100
failures short of completion. -/
lemma sendLoop_inv (outcomes : Nat → Bool) :
    ∀ i fails n, i ≤ SIZE → fails < 100 →
      (sendLoop outcomes i fails n).iters + i + fails
          = n + (sendLoop outcomes i fails n).pos
              + (sendLoop outcomes i fails n).fails ∧
      ((sendLoop outcomes i fails n).pos = SIZE ∧
          (sendLoop outcomes i fails n).fails < 100 ∨
        (sendLoop outcomes i fails n).pos < SIZE ∧
          (sendLoop outcomes i fails n).fails = 100) := by
  intro i fails n
  induction i, fails, n using sendLoop.induct outcomes with
  | case1 i fails n hlt hout hge =>
      intro _ hf
      omega
  | case2 i fails n hlt hout hge ih =>
      intro hi hf
      rw [sendLoop, if_pos hlt, if_pos hout, if_neg hge]
      have := ih (by omega) hf
      omega
  | case3 i fails n hlt hout hge =>
      intro hi hf
      rw [sendLoop, if_pos hlt, if_neg (by simpa using hout), if_pos hge]
      dsimp only
      omega
  | case4 i fails n hlt hout hge ih =>
      intro hi hf
      rw [sendLoop, if_pos hlt, if_neg (by simpa using hout), if_neg hge]
      have := ih (by omega) (by omega)
      omega
  | case5 i fails n hge =>
      intro hi hf
      rw [sendLoop, if_neg hge]
      dsimp only
      omega

/-! ## Claim theorems -/

/-- C1: for every stream position `i < SIZE` and offset `j < SIZE - 1`, with
`mid = (SIZE - 1) / 2` and `d = |mid - i|`, payload byte `j + 1` is computed
exactly as `(high ||| low) + '0'` with `high = (j ≥ mid + d)` and
`low = (j < mid - d)` — equivalently, it is '1' (49) outside the band
`[mid - d, mid + d)` and '0' (48) inside it. -/
theorem makePayload_chevron (b : Nat → Nat) (i j : Nat)
    (hi : i < SIZE) (hj : j < SIZE - 1) :
    makePayload i b (j + 1) =
      ((if ((SIZE : Int) - 1) / 2 + |((SIZE : Int) - 1) / 2 - (i : Int)| ≤ (j : Int)
        then 1 else 0) |||
       (if (j : Int) < ((SIZE : Int) - 1) / 2 - |((SIZE : Int) - 1) / 2 - (i : Int)|
        then 1 else 0)) + 48 ∧
    makePayload i b (j + 1) =
      (if ((SIZE : Int) - 1) / 2 - |((SIZE : Int) - 1) / 2 - (i : Int)| ≤ (j : Int) ∧
          (j : Int) < ((SIZE : Int) - 1) / 2 + |((SIZE : Int) - 1) / 2 - (i : Int)|
       then 48 else 49) := by
  have hk : makePayload i b (j + 1) = chevronByte i j := by
    rw [makePayload_lt i b (j + 1) (by simp only [SIZE] at *; omega)]
    simp
  constructor
  · rw [hk]; rfl
  · rw [hk]; exact chevronByte_band i hi j hj

/-- Witness for C1 at `i = 5`, `j = 3`: with `d = 10` the band is
`[5, 25)`, offset 3 lies outside it, so byte 4 is '1'. -/
theorem makePayload_chevron_w : makePayload 5 (fun _ => 0) (3 + 1) = 49 := by
  have h := (makePayload_chevron (fun _ => 0) 5 3 (by decide) (by decide)).2
  rw [h]; decide

/-- C2: the send loop of one transmit cycle terminates for every sequence of
send outcomes; each iteration advances the position or the failure count by
exactly one (`iters = pos + fails`), at most `SIZE + 100` iterations run,
and the loop exits either with the stream complete (`pos = SIZE`,
`fails < 100`) or aborted at exactly 100 failures with `pos < SIZE`. -/
theorem sendLoop_bounded (outcomes : Nat → Bool) :
    (sendLoop outcomes 0 0 0).iters
        = (sendLoop outcomes 0 0 0).pos + (sendLoop outcomes 0 0 0).fails ∧
    (sendLoop outcomes 0 0 0).iters ≤ SIZE + 100 ∧
    ((sendLoop outcomes 0 0 0).pos = SIZE ∧ (sendLoop outcomes 0 0 0).fails < 100 ∨
      (sendLoop outcomes 0 0 0).pos < SIZE ∧ (sendLoop outcomes 0 0 0).fails = 100) := by
  have h := sendLoop_inv outcomes 0 0 0 (by simp [SIZE]) (by omega)
  omega

/-- C3: `SIZE` is at most 32 and for every `i < SIZE` byte 0 of the payload
is `'A' + i` (65 + i) when `i < 26` and `'G' + i` (71 + i) otherwise, and
the marker is injective on stream positions. -/
theorem markerByte_spec (b b2 : Nat → Nat) (i i2 : Nat)
    (hi : i < SIZE) (hi2 : i2 < SIZE) :
    SIZE ≤ 32 ∧
    makePayload i b 0 = (if i < 26 then 65 + i else 71 + i) ∧
    (makePayload i b 0 = makePayload i2 b2 0 → i = i2) := by
  have h0 : ∀ i0 : Nat, ∀ b0 : Nat → Nat, makePayload i0 b0 0 = markerByte i0 := by
    intro i0 b0; rw [makePayload_lt i0 b0 0 (by simp [SIZE])]; simp
  refine ⟨by simp [SIZE], ?_, ?_⟩
  · rw [h0 i b]
    unfold markerByte
    split_ifs <;> omega
  · rw [h0 i b, h0 i2 b2]
    exact markerByte_inj i hi i2 hi2

/-- Witness for C3 at `i = 31`: byte 0 is `'G' + 31 = 102`. -/
theorem markerByte_spec_w :
    makePayload 31 (fun _ => 0) 0 = (if 31 < 26 then 65 + 31 else 71 + 31) :=
  (markerByte_spec (fun _ => 0) (fun _ => 0) 31 0 (by decide) (by decide)).2.1

/-- C4 (counterexample): on a tick that starts in Receive mode with a
payload available and the command 'T' arriving, the trace is
`[rxRead, cmdSample, stopListen]` — the receive work runs first, before the
command is sampled, and no transmit work happens on this tick even though
the command switched the mode; so the command does not take effect on this
tick's role work. -/
theorem tick_cmd_after_role_work :
    (tick ⟨false, 0, true⟩ ⟨true, some 'T'⟩).2
        = [Ev.rxRead, Ev.cmdSample, Ev.stopListen] ∧
    Ev.txCycle ∉ (tick ⟨false, 0, true⟩ ⟨true, some 'T'⟩).2 ∧
    (tick ⟨false, 0, true⟩ ⟨true, some 'T'⟩).1.role = true := by
  decide

/-- C4 (amended): within every tick the role-conditional work, selected by
the mode the node had when the tick began, runs first; only then is the
pending command sampled and the mode updated — a command arriving during a
tick takes effect on the following tick's role work. -/
theorem tick_role_work_first (s : NodeState) (inp : TickInput) :
    (∃ rest, (tick s inp).2
        = (if s.role then [Ev.txCycle]
           else if inp.available then [Ev.rxRead] else [])
          ++ Ev.cmdSample :: rest) ∧
    (Ev.txCycle ∈ (tick s inp).2 ↔ s.role = true) ∧
    (Ev.rxRead ∈ (tick s inp).2 ↔ s.role = false ∧ inp.available = true) := by
  obtain ⟨ro, co, li⟩ := s
  obtain ⟨a, oi⟩ := inp
  have hcmd : ∀ s1 : NodeState, ∃ rest, (applyCommand s1 oi).2 = Ev.cmdSample :: rest ∧
      Ev.txCycle ∉ (applyCommand s1 oi).2 ∧ Ev.rxRead ∉ (applyCommand s1 oi).2 := by
    intro s1
    cases oi with
    | none => exact ⟨[], by simp [applyCommand]⟩
    | some c =>
        simp only [applyCommand]
        split_ifs
        · exact ⟨[Ev.stopListen], by simp⟩
        · exact ⟨[Ev.startListen], by simp⟩
        · exact ⟨[], by simp⟩
  cases ro with
  | true =>
      obtain ⟨rest, hrest, htx, hrx⟩ := hcmd ⟨true, co, li⟩
      rw [hrest] at htx hrx
      simp only [List.mem_cons, not_or] at htx hrx
      refine ⟨⟨rest, ?_⟩, ?_, ?_⟩ <;>
        simp [tick, roleWork, hrest, htx, hrx]
  | false =>
      cases a with
      | true =>
          obtain ⟨rest, hrest, htx, hrx⟩ := hcmd ⟨false, incCounter co, li⟩
          rw [hrest] at htx hrx
          simp only [List.mem_cons, not_or] at htx hrx
          refine ⟨⟨rest, ?_⟩, ?_, ?_⟩ <;>
            simp [tick, roleWork, hrest, htx, hrx]
      | false =>
          obtain ⟨rest, hrest, htx, hrx⟩ := hcmd ⟨false, co, li⟩
          rw [hrest] at htx hrx
          simp only [List.mem_cons, not_or] at htx hrx
          refine ⟨⟨rest, ?_⟩, ?_, ?_⟩ <;>
            simp [tick, roleWork, hrest, htx, hrx]

/-- C5: the tick's command sample passes 500 to `getchar_timeout_us`, whose
unit is microseconds — 500 µs, not the 500 ms (500000 µs) the claim and the
code's own `// wait 0.5 second` comment state; a timeout or a character
other than 'T'/'t'/'R'/'r' leaves the node state unchanged. -/
theorem command_timeout_bug (s : NodeState) :
    commandTimeoutUs = 500 ∧
    commandTimeoutUs ≠ 500 * 1000 ∧
    applyCommand s none = (s, [Ev.cmdSample]) ∧
    applyCommand s (some 'x') = (s, [Ev.cmdSample]) := by
  refine ⟨rfl, by decide, rfl, ?_⟩
  have h1 : ¬ ((('x' : Char) = 'T' ∨ ('x' : Char) = 't') ∧ s.role = false) := by
    rintro ⟨h, -⟩; revert h; decide
  have h2 : ¬ ((('x' : Char) = 'R' ∨ ('x' : Char) = 'r') ∧ s.role = true) := by
    rintro ⟨h, -⟩; revert h; decide
  simp only [applyCommand]
  rw [if_neg h1, if_neg h2]

/-- C6: from Receive mode, the command 'T'/'t' switches to Transmit mode,
resets the receipt counter to 0 (whatever it was), and stops listening; from
Transmit mode, 'R'/'r' switches to Receive mode and starts listening
without touching the counter. -/
theorem becomeTransmitter_resets (c : Nat) (l : Bool) :
    applyCommand ⟨false, c, l⟩ (some 'T')
        = (⟨true, 0, false⟩, [Ev.cmdSample, Ev.stopListen]) ∧
    applyCommand ⟨false, c, l⟩ (some 't')
        = (⟨true, 0, false⟩, [Ev.cmdSample, Ev.stopListen]) ∧
    applyCommand ⟨true, c, l⟩ (some 'R')
        = (⟨false, c, true⟩, [Ev.cmdSample, Ev.startListen]) ∧
    applyCommand ⟨true, c, l⟩ (some 'r')
        = (⟨false, c, true⟩, [Ev.cmdSample, Ev.startListen]) := by
  refine ⟨?_, ?_, ?_, ?_⟩ <;> simp [applyCommand]

/-- C7: requesting the already-active mode is a no-op: 'T'/'t' in Transmit
mode and 'R'/'r' in Receive mode leave mode, counter and listening state
unchanged, and touch the radio in no way (only the sample itself appears in
the trace). -/
theorem mode_switch_idempotent (c : Nat) (l : Bool) :
    applyCommand ⟨true, c, l⟩ (some 'T') = (⟨true, c, l⟩, [Ev.cmdSample]) ∧
    applyCommand ⟨true, c, l⟩ (some 't') = (⟨true, c, l⟩, [Ev.cmdSample]) ∧
    applyCommand ⟨false, c, l⟩ (some 'R') = (⟨false, c, l⟩, [Ev.cmdSample]) ∧
    applyCommand ⟨false, c, l⟩ (some 'r') = (⟨false, c, l⟩, [Ev.cmdSample]) := by
  refine ⟨?_, ?_, ?_, ?_⟩ <;> simp [applyCommand]

/-- C8: when `radio.begin()` fails at startup, `setup` returns `false` after
reporting the failure, and `main`'s `while (setup_ok)` loop is never
entered: after any number of would-be ticks there is no node state, and the
whole run's event trace is just the failure report — no command sample, no
transmit work, no receive work ever occurs. -/
theorem radio_unavailable_no_ticks (inputs : Nat → TickInput) (n : Nat) :
    (setupRun false).1 = false ∧
    mainState false inputs n = none ∧
    mainEvents false inputs n = [Ev.radioFailReport] := by
  refine ⟨rfl, ?_, ?_⟩ <;> simp [mainState, mainEvents, setupRun]

/-- C9: the buffer's NUL terminator at index `SIZE` is set by `setup` and
preserved by every operation — `makePayload` writes only indices below
`SIZE` and a receive copies exactly `SIZE` bytes — so after building any
in-range payload, and after receiving any payload the other node built, the
buffer prints as a string of exactly `SIZE` characters. -/
theorem buffer_nul_invariant (b : Nat → Nat) (hb : b SIZE = 0) :
    (∀ b0 : Nat → Nat, setupBuffer b0 SIZE = 0) ∧
    (∀ i, makePayload i b SIZE = 0) ∧
    (∀ i k, SIZE ≤ k → makePayload i b k = b k) ∧
    (∀ p, readPayload p b SIZE = 0) ∧
    (∀ i, i < SIZE → cstrLen (makePayload i b) = SIZE) ∧
    (∀ i p0, i < SIZE → cstrLen (readPayload (makePayload i p0) b) = SIZE) := by
  have hread : ∀ p : Nat → Nat, readPayload p b SIZE = 0 := by
    intro p
    unfold readPayload
    simp [hb]
  refine ⟨?_, ?_, ?_, hread, ?_, ?_⟩
  · intro b0; simp [setupBuffer]
  · intro i; exact (makePayload_frame i b SIZE le_rfl).trans hb
  · intro i k hk; exact makePayload_frame i b k hk
  · intro i _
    exact cstrLen_of_nonzero _ (fun k hk => makePayload_nonzero i b k hk)
      ((makePayload_frame i b SIZE le_rfl).trans hb)
  · intro i p0 _
    refine cstrLen_of_nonzero _ ?_ (hread _)
    intro k hk
    unfold readPayload
    simp only [hk, if_pos]
    exact makePayload_nonzero i p0 k hk

/-- Witness for C9 on the all-zero buffer and stream position 0. -/
theorem buffer_nul_invariant_w :
    cstrLen (makePayload 0 (fun _ => 0)) = SIZE :=
  (buffer_nul_invariant (fun _ => 0) rfl).2.2.2.2.1 0 (by decide)

/-- C10: the receipt counter is 8-bit: draining a payload in Receive mode
steps the counter modulo 256, so across `k` consecutive receiving ticks the
counter is `k % 256`; in particular after 255 receptions it reads 255 and
after 256 it has wrapped back to 0. -/
theorem counter_wraps (k : Nat) :
    (runTicks (fun _ => ⟨true, none⟩) k).counter = k % 256 ∧
    (runTicks (fun _ => ⟨true, none⟩) 255).counter = 255 ∧
    (runTicks (fun _ => ⟨true, none⟩) 256).counter = 0 := by
  have hstep : ∀ m : Nat, runTicks (fun _ => ⟨true, none⟩) m
      = ⟨false, m % 256, true⟩ := by
    intro m
    induction m with
    | zero => rfl
    | succ p ih =>
        show (tick (runTicks (fun _ => ⟨true, none⟩) p) ⟨true, none⟩).1
            = ⟨false, (p + 1) % 256, true⟩
        rw [ih]
        simp [tick, roleWork, applyCommand, incCounter, Nat.add_mod_left]
  refine ⟨by rw [hstep k], by rw [hstep 255], by rw [hstep 256]⟩

end StreamingData
